import Mathlib

set_option maxRecDepth 4096
set_option linter.unusedVariables false

namespace Gsbt

/-!
Shallow embedding of the gsbt backup tool's core (connector abstraction,
pattern matcher, backup orchestrator, archive naming, multi-server runner).
Go strings are modelled as Lean `String` / `List Char` (byte-faithful for
ASCII input, rune-faithful otherwise, matching Go's rune-decoding match code).
-/

abbrev Str := List Char

/-! ### Go `path/filepath.Match` (pattern matcher), Unix build
Faithful translation of `scanChunk`, `matchChunk`, `getEsc` and `Match`
from Go's path/filepath/match.go with `Separator = '/'`.  The outer
`Pattern:` loop consumes at least one pattern character per iteration,
so it is driven by a fuel argument initialised to `pattern.length + 1`,
which can never run out. -/

/-- Leading-star stripping part of Go `scanChunk`: consumes the leading
run of `*` and reports whether at least one was present. -/
def stripStars : Str → Bool × Str
  | [] => (false, [])
  | c :: rest =>
    if c = '*' then
      let r := stripStars rest
      (true, r.2)
    else (false, c :: rest)

/-- Chunk-boundary scan of Go `scanChunk`: copies characters until an
unbracketed `*`, tracking `[`/`]` bracket state and skipping the character
after a `\`. Returns (chunk, remaining pattern). -/
def chunkScan : Str → Bool → Str × Str
  | [], _ => ([], [])
  | c :: rest, inrange =>
    if c = '*' ∧ ¬inrange then ([], c :: rest)
    else if c = '\\' then
      match rest with
      | [] => ([c], [])
      | d :: rest2 =>
        let r := chunkScan rest2 inrange
        (c :: d :: r.1, r.2)
    else
      let inr := if c = '[' then true else if c = ']' then false else inrange
      let r := chunkScan rest inr
      (c :: r.1, r.2)

/-- Go `scanChunk`: splits a pattern into (leading-star flag, first chunk,
rest of pattern). -/
def scanChunk (pattern : Str) : Bool × Str × Str :=
  let s := stripStars pattern
  let r := chunkScan s.2 false
  (s.1, r.1, r.2)

/-- Go `getEsc`: reads a possibly-escaped character out of a `[...]` class;
errors (ErrBadPattern) on `-`, `]`, end of pattern, or a class that does
not continue. -/
def getEsc : Str → Except Unit (Char × Str)
  | [] => .error ()
  | c :: rest =>
    if c = '-' ∨ c = ']' then .error ()
    else if c = '\\' then
      match rest with
      | [] => .error ()
      | d :: rest2 => if rest2.isEmpty then .error () else .ok (d, rest2)
    else if rest.isEmpty then .error () else .ok (c, rest)

/-- The range-parsing loop inside `matchChunk`'s `[` case: parses
`lo(-hi)?` ranges until the closing `]`, recording whether `r` fell in any
range. Fuel-driven; each iteration consumes at least one character so
`chunk.length + 1` fuel always suffices. -/
def rangesLoop (r : Char) : Nat → Str → Bool → Bool → Except Unit (Str × Bool)
  | 0, _, _, _ => .error ()
  | fuel+1, chunk, matched, sawRange =>
    match chunk with
    | ']' :: rest =>
      if sawRange then .ok (rest, matched) else .error ()
    | _ =>
      match getEsc chunk with
      | .error _ => .error ()
      | .ok (lo, chunk1) =>
        match chunk1 with
        | '-' :: chunk2 =>
          match getEsc chunk2 with
          | .error _ => .error ()
          | .ok (hi, chunk3) =>
            rangesLoop r fuel chunk3 (matched || (lo ≤ r ∧ r ≤ hi)) true
        | _ =>
          rangesLoop r fuel chunk1 (matched || (lo ≤ r ∧ r ≤ lo)) true

/-- Go `matchChunk`: matches a star-free chunk against the head of `s`,
returning `some rest` on success, `none` on a plain mismatch, `.error` on
a malformed pattern (the `failed` flag keeps scanning for pattern errors
after a mismatch, exactly as in Go). Fuel is `chunk.length + 1`. -/
def matchChunk : Nat → Str → Str → Bool → Except Unit (Option Str)
  | 0, _, _, _ => .error ()
  | _fuel+1, [], s, failed => if failed then .ok none else .ok (some s)
  | fuel+1, c :: chunkRest, s, failed0 =>
    let failed := failed0 || s.isEmpty
    if c = '[' then
      let r := if failed then Char.ofNat 0 else s.headD (Char.ofNat 0)
      let s1 := if failed then s else s.tail
      let negated := chunkRest.headD (Char.ofNat 0) = '^'
      let chunk1 := if negated then chunkRest.tail else chunkRest
      match rangesLoop r (chunk1.length + 1) chunk1 false false with
      | .error _ => .error ()
      | .ok (chunk2, matched) =>
        matchChunk fuel chunk2 s1 (failed || (matched == decide negated))
    else if c = '?' then
      if failed then matchChunk fuel chunkRest s failed
      else matchChunk fuel chunkRest s.tail (s.headD (Char.ofNat 0) == '/')
    else if c = '\\' then
      match chunkRest with
      | [] => .error ()
      | d :: chunkRest2 =>
        if failed then matchChunk fuel chunkRest2 s failed
        else matchChunk fuel chunkRest2 s.tail (!(s.headD (Char.ofNat 0) == d))
    else
      if failed then matchChunk fuel chunkRest s failed
      else matchChunk fuel chunkRest s.tail (!(s.headD (Char.ofNat 0) == c))

/-- The inner star-search loop of Go `Match`: tries `matchChunk` at every
byte offset of `name` up to the next separator; returns the remaining name
on the first acceptable match. -/
def starSearch (chunk : Str) (restIsEmpty : Bool) : Str → Except Unit (Option Str)
  | [] => .ok none
  | c :: ns =>
    if c = '/' then .ok none
    else
      match matchChunk (chunk.length + 1) chunk ns false with
      | .error _ => .error ()
      | .ok (some t) =>
        if restIsEmpty ∧ ¬t.isEmpty then starSearch chunk restIsEmpty ns
        else .ok (some t)
      | .ok none => starSearch chunk restIsEmpty ns

/-- The `Pattern:` loop of Go `Match`. -/
def matchLoop : Nat → Str → Str → Except Unit Bool
  | 0, _, _ => .error ()
  | fuel+1, pattern, name =>
    if pattern.isEmpty then .ok name.isEmpty
    else
      let sc := scanChunk pattern
      let star := sc.1
      let chunk := sc.2.1
      let rest := sc.2.2
      if star ∧ chunk.isEmpty then
        .ok (!name.contains '/')
      else
        match matchChunk (chunk.length + 1) chunk name false with
        | .error _ => .error ()
        | .ok (some t) =>
          if t.isEmpty ∨ ¬rest.isEmpty then matchLoop fuel rest t
          else if star then
            match starSearch chunk rest.isEmpty name with
            | .error _ => .error ()
            | .ok (some t2) => matchLoop fuel rest t2
            | .ok none => .ok false
          else .ok false
        | .ok none =>
          if star then
            match starSearch chunk rest.isEmpty name with
            | .error _ => .error ()
            | .ok (some t2) => matchLoop fuel rest t2
            | .ok none => .ok false
          else .ok false

/-- Go `filepath.Match pattern name` (matched, err). -/
def goMatch (pattern name : String) : Except Unit Bool :=
  matchLoop (pattern.toList.length + 1) pattern.toList name.toList

/-- The call shape used by the matcher: `matched, _ := filepath.Match(...)`,
i.e. a malformed pattern counts as a non-match. -/
def globMatch (pattern name : String) : Bool :=
  match goMatch pattern name with
  | .ok b => b
  | .error _ => false

/-! ### Go `path/filepath.Base` (Unix) -/

/-- Go `filepath.Base` for Unix separators. -/
def baseName (path : String) : String :=
  if path = "" then "."
  else
    let cs1 := (path.toList.reverse.dropWhile (fun c => c = '/')).reverse
    if cs1.isEmpty then "/"
    else ⟨(cs1.reverse.takeWhile (fun c => c ≠ '/')).reverse⟩

/-! ### `MatchesPatterns` (internal/connector/matcher.go) -/

/-- Go `strings.HasPrefix` (byte-wise). -/
def strHasPrefix (s pre : String) : Bool := pre.toList.isPrefixOf s.toList

/-- Go `strings.HasSuffix` (byte-wise). -/
def strHasSuffix (s suffix : String) : Bool := suffix.toList.isSuffixOf s.toList

/-- Go `strings.TrimSuffix`: removes one trailing occurrence when present. -/
def strTrimSuffix (s suffix : String) : String :=
  if strHasSuffix s suffix then ⟨s.toList.take (s.toList.length - suffix.toList.length)⟩
  else s

/-- Body of the exclude-loop of `MatchesPatterns` for one pattern:
trailing-`/` patterns are directory-prefix rules (also matching the
Windows separator), others are glob-matched against the base name and
the full path. -/
def excludeMatches (path pattern : String) : Bool :=
  if strHasSuffix pattern "/" then
    let dir := strTrimSuffix pattern "/"
    strHasPrefix path (dir ++ "/") || strHasPrefix path (dir ++ "\\") || path == dir
  else
    globMatch pattern (baseName path) || globMatch pattern path

/-- Body of the include-loop of `MatchesPatterns` for one pattern. -/
def includeMatches (path pattern : String) : Bool :=
  if pattern = "*" then true
  else globMatch pattern (baseName path) || globMatch pattern path

/-- `MatchesPatterns` (internal/connector/matcher.go): include defaults to
`["*"]`; excludes are checked first and short-circuit to false; then the
path must match some include pattern. -/
def MatchesPatterns (path : String) (includePats excludePats : List String) : Bool :=
  let inc := if includePats.isEmpty then ["*"] else includePats
  if excludePats.any (fun pat => excludeMatches path pat) then false
  else inc.any (fun pat => includeMatches path pat)

/-! ### Go `path.Clean` / `Join` / `Dir` / `ToSlash` (Unix)
`filepath.Clean` and `path.Clean` coincide on Unix.  The imperative
lazybuf algorithm is translated to its standard component form: split on
`/`, drop empty and `.` components, resolve `..` against the stack
(dropping it at the root when rooted, keeping it when relative). -/

/-- Split a character list on `/` (like `strings.Split`); never empty. -/
def splitSlash : Str → List Str
  | [] => [[]]
  | c :: rest =>
    let r := splitSlash rest
    if c = '/' then [] :: r
    else (c :: r.headD []) :: r.tail

/-- The `..`-resolving component walk of Go `Clean`. `stack` holds already
emitted components in reverse. -/
def cleanStack (rooted : Bool) : List Str → List Str → List Str
  | stack, [] => stack.reverse
  | stack, comp :: rest =>
    if comp = [] ∨ comp = ['.'] then cleanStack rooted stack rest
    else if comp = ['.', '.'] then
      match stack with
      | [] =>
        if rooted then cleanStack rooted [] rest
        else cleanStack rooted [['.', '.']] rest
      | top :: stack2 =>
        if top = ['.', '.'] then cleanStack rooted (comp :: top :: stack2) rest
        else cleanStack rooted stack2 rest
    else cleanStack rooted (comp :: stack) rest

/-- Go `path.Clean` (= `filepath.Clean` on Unix). -/
def goClean (path : String) : String :=
  if path = "" then "."
  else
    let cs := path.toList
    let rooted := cs.headD ' ' = '/'
    let comps := cleanStack rooted [] (splitSlash cs)
    let body := List.intercalate ['/'] comps
    if rooted then ⟨'/' :: body⟩
    else if body.isEmpty then "."
    else ⟨body⟩

/-- Go `filepath.Join` (= `path.Join` on Unix) for two elements: empty
leading elements are skipped, the rest are joined with `/` and cleaned. -/
def goJoin (a b : String) : String :=
  if a = "" then
    if b = "" then "" else goClean b
  else goClean (a ++ "/" ++ b)

/-- Go `filepath.Dir` (Unix): everything up to and including the final
`/`, cleaned (`.` when there is no separator). -/
def dirName (path : String) : String :=
  goClean ⟨(path.toList.reverse.dropWhile (fun c => c ≠ '/')).reverse⟩

/-- Go `filepath.ToSlash`, parametrised by the host OS separator: replaces
every separator with `/` (the identity when the separator already is `/`). -/
def toSlash (sep : Char) (s : String) : String :=
  if sep = '/' then s else ⟨s.toList.map (fun c => if c = sep then '/' else c)⟩

/-! ### Connector data model (internal/connector/connector.go) -/

/-- `connector.FileInfo`: one remote file as produced by `List`. Times are
modelled as integers (Unix seconds); sizes are Go `int64`. -/
structure FileInfo where
  Path : String
  Size : Int
  ModTime : Int
  IsDir : Bool
deriving Repr, DecidableEq

/-- `connector.Config` (the `Type` field is called `ctype` because `Type`
is a Lean keyword). -/
structure Config where
  ctype : String
  Host : String
  Port : Int
  Username : String
  Password : String
  KeyFile : String
  Passive : Bool
  TLS : Bool
  APIKey : String
  ServiceID : String
  RemotePath : String
  Include : List String
  Exclude : List String
  RetryAttempts : Int
  RetryDelay : Int
  RetryBackoff : Bool
deriving Repr, DecidableEq

/-- The Go zero value of `connector.Config`. -/
def defaultConfig : Config :=
  { ctype := "", Host := "", Port := 0, Username := "", Password := "",
    KeyFile := "", Passive := false, TLS := false, APIKey := "",
    ServiceID := "", RemotePath := "", Include := [], Exclude := [],
    RetryAttempts := 0, RetryDelay := 0, RetryBackoff := false }

/-! ### Direct-FTP connector (internal/connector/ftp.go)
The network is modelled by `FTPSession` (what an established session
returns for LIST/RETR/STOR) and `FTPNet` (dial and login outcomes). -/

/-- One entry of a remote directory listing (`github.com/jlaffaye/ftp`
`Entry`): name, size, time and whether it is a folder. -/
structure FTPEntry where
  name : String
  size : Int
  time : Int
  isFolder : Bool
deriving Repr, DecidableEq

/-- Model of an established FTP session. -/
structure FTPSession where
  listDir : String → Except String (List FTPEntry)
  retr : String → Except String Unit
  stor : String → Except String Unit

/-- Model of the FTP transport environment seen by `Connect`. -/
structure FTPNet where
  dial : Except String FTPSession
  login : String → String → Except String Unit

/-- `FTPConnector`: config plus the (initially nil) session. -/
structure FTPConnector where
  config : Config
  conn : Option FTPSession

/-- `NewFTPConnector`: defaults the port to 21, leaves `conn` nil. -/
def NewFTPConnector (cfg : Config) : FTPConnector :=
  { config := if cfg.Port = 0 then { cfg with Port := 21 } else cfg, conn := none }

/-- `FTPConnector.Name`. -/
def FTPConnector.Name (f : FTPConnector) : String :=
  "ftp://" ++ f.config.Host ++ ":" ++ toString f.config.Port

/-- `FTPConnector.Connect`: dial then login; only on success is the
session stored in `conn`. -/
def FTPConnector.Connect (f : FTPConnector) (net : FTPNet) :
    FTPConnector × Except String Unit :=
  match net.dial with
  | .error e => (f, .error ("failed to connect to FTP: " ++ e))
  | .ok sess =>
    match net.login f.config.Username f.config.Password with
    | .error e => (f, .error ("FTP login failed: " ++ e))
    | .ok _ => ({ f with conn := some sess }, .ok ())

/-- The entry loop inside `FTPConnector.walkDir`, with the recursive
sub-directory walk abstracted as `recurse`. -/
def walkEntries (recurse : String → Except String (List FileInfo))
    (remotePath : String) (dir : String) :
    List FTPEntry → Except String (List FileInfo)
  | [] => .ok []
  | e :: es =>
    if e.name = "." ∨ e.name = ".." then walkEntries recurse remotePath dir es
    else
      let fullPath := goJoin dir e.name
      let relChars :=
        if remotePath.length > 0 then
          let t := fullPath.toList.drop remotePath.length
          if t.headD ' ' = '/' ∧ ¬t.isEmpty then t.tail else t
        else fullPath.toList
      let info : FileInfo :=
        { Path := ⟨relChars⟩, Size := e.size, ModTime := e.time, IsDir := e.isFolder }
      if e.isFolder then do
        let sub ← recurse fullPath
        let rest ← walkEntries recurse remotePath dir es
        .ok (info :: (sub ++ rest))
      else do
        let rest ← walkEntries recurse remotePath dir es
        .ok (info :: rest)

/-- `FTPConnector.walkDir`: recursively lists `dir`, computing each
entry's path relative to the configured remote root by trimming the root
prefix (and one leading `/`). Fuel bounds the recursion depth (the Go
code recurses unboundedly on the remote tree). -/
def walkDir (sess : FTPSession) (remotePath : String) :
    Nat → String → Except String (List FileInfo)
  | 0 => fun _ => .error "walk recursion limit"
  | fuel+1 => fun dir =>
    match sess.listDir dir with
    | .error e => .error ("failed to list " ++ dir ++ ": " ++ e)
    | .ok entries => walkEntries (walkDir sess remotePath fuel) remotePath dir entries

/-- `FTPConnector.List`: nil-check, recursive walk from the remote root,
then pattern filtering that also drops directories. -/
def FTPConnector.List (f : FTPConnector) (fuel : Nat) :
    Except String (List FileInfo) :=
  match f.conn with
  | none => .error "not connected"
  | some sess => do
    let files ← walkDir sess f.config.RemotePath fuel f.config.RemotePath
    .ok (files.filter fun file =>
      !file.IsDir && MatchesPatterns file.Path f.config.Include f.config.Exclude)

/-- `FTPConnector.Download`: nil-check, then RETR of the joined path. -/
def FTPConnector.Download (f : FTPConnector) (remotePath : String) :
    Except String Unit :=
  match f.conn with
  | none => .error "not connected"
  | some sess =>
    match sess.retr (goJoin f.config.RemotePath remotePath) with
    | .error e => .error ("failed to download " ++ remotePath ++ ": " ++ e)
    | .ok _ => .ok ()

/-- `FTPConnector.Upload`: nil-check, best-effort MakeDir (error ignored),
then STOR of the joined path. -/
def FTPConnector.Upload (f : FTPConnector) (remotePath : String) :
    Except String Unit :=
  match f.conn with
  | none => .error "not connected"
  | some sess => sess.stor (goJoin f.config.RemotePath remotePath)

/-! ### Direct-SFTP connector (internal/connector/sftp.go) -/

/-- An SSH authentication method as assembled by `Connect`. -/
inductive AuthMethod where
  | publicKeys : AuthMethod
  | password : String → AuthMethod
deriving Repr, DecidableEq

/-- Model of an established SFTP session. `walk` stands for the result of
the recursive `ReadDir` walk from a root (the walk itself is I/O against
the session). -/
structure SFTPSession where
  walk : String → Except String (List FileInfo)
  openFile : String → Except String Unit
  create : String → Except String Unit

/-- Model of the SSH/SFTP environment seen by `Connect`. -/
structure SFTPNet where
  readFile : String → Except String Str
  parseKey : Str → Except String Unit
  dial : List AuthMethod → Except String Unit
  newClient : Except String SFTPSession

/-- `SFTPConnector`: config plus the (initially nil) ssh and sftp clients. -/
structure SFTPConnector where
  config : Config
  sshClient : Option Unit
  sftpClient : Option SFTPSession

/-- `NewSFTPConnector`: defaults the port to 22, leaves both clients nil. -/
def NewSFTPConnector (cfg : Config) : SFTPConnector :=
  { config := if cfg.Port = 0 then { cfg with Port := 22 } else cfg,
    sshClient := none, sftpClient := none }

/-- The auth-method assembly at the top of `SFTPConnector.Connect`: a key
file (read + parsed) is appended first when configured, a password is
appended second when configured; zero methods is an error. -/
def sftpAuthMethods (cfg : Config) (readFile : String → Except String Str)
    (parseKey : Str → Except String Unit) : Except String (List AuthMethod) :=
  match ((if cfg.KeyFile ≠ "" then
          match readFile cfg.KeyFile with
          | .error e => .error ("failed to read key file: " ++ e)
          | .ok key =>
            match parseKey key with
            | .error e => .error ("failed to parse key file: " ++ e)
            | .ok _ => .ok [AuthMethod.publicKeys]
         else .ok []) : Except String (List AuthMethod)) with
  | .error e => .error e
  | .ok ms =>
    let ms := ms ++ (if cfg.Password ≠ "" then [AuthMethod.password cfg.Password] else [])
    if ms.isEmpty then
      .error "no authentication method provided (need password or key_file)"
    else .ok ms

/-- `SFTPConnector.Connect`: assemble auth methods, dial SSH, then create
the SFTP client; a failed client creation leaves `sftpClient` nil (the
ssh client field was already assigned, as in the source). -/
def SFTPConnector.Connect (s : SFTPConnector) (net : SFTPNet) :
    SFTPConnector × Except String Unit :=
  match sftpAuthMethods s.config net.readFile net.parseKey with
  | .error e => (s, .error e)
  | .ok methods =>
    match net.dial methods with
    | .error e => (s, .error ("failed to connect to SSH: " ++ e))
    | .ok _ =>
      let s1 := { s with sshClient := some () }
      match net.newClient with
      | .error e => (s1, .error ("failed to create SFTP client: " ++ e))
      | .ok sess => ({ s1 with sftpClient := some sess }, .ok ())

/-- `SFTPConnector.List`: nil-check, walk, then pattern filtering that
also drops directories. -/
def SFTPConnector.List (s : SFTPConnector) : Except String (List FileInfo) :=
  match s.sftpClient with
  | none => .error "not connected"
  | some sess => do
    let files ← sess.walk s.config.RemotePath
    .ok (files.filter fun file =>
      !file.IsDir && MatchesPatterns file.Path s.config.Include s.config.Exclude)

/-- `SFTPConnector.Download`: nil-check, then open + copy. -/
def SFTPConnector.Download (s : SFTPConnector) (remotePath : String) :
    Except String Unit :=
  match s.sftpClient with
  | none => .error "not connected"
  | some sess =>
    match sess.openFile (goJoin s.config.RemotePath remotePath) with
    | .error e => .error ("failed to open " ++ remotePath ++ ": " ++ e)
    | .ok _ => .ok ()

/-- `SFTPConnector.Upload`: nil-check, best-effort MkdirAll, create + copy. -/
def SFTPConnector.Upload (s : SFTPConnector) (remotePath : String) :
    Except String Unit :=
  match s.sftpClient with
  | none => .error "not connected"
  | some sess =>
    match sess.create (goJoin s.config.RemotePath remotePath) with
    | .error e => .error ("failed to create " ++ remotePath ++ ": " ++ e)
    | .ok _ => .ok ()

/-! ### Vendor-API (Nitrado) connector (internal/connector/nitrado.go) -/

/-- The decoded `nitradoFTPResponse` JSON body (nested `data.ftp` fields
flattened). -/
structure NitradoFTPResponse where
  status : String
  hostname : String
  port : Int
  username : String
  password : String
  message : String
deriving Repr, DecidableEq

/-- Model of one HTTP response: status code, the `Retry-After` header
(empty when absent), the raw body, and the JSON decode outcome. -/
structure HTTPResponse where
  statusCode : Nat
  retryAfter : String
  bodyRaw : String
  bodyJSON : Except String NitradoFTPResponse

/-- `ftpCredentials`. -/
structure FTPCredentials where
  Hostname : String
  Port : Int
  Username : String
  Password : String
deriving Repr, DecidableEq

/-- `NitradoConnector`: config, the (initially nil) FTP delegate, and the
API parameters. -/
structure NitradoConnector where
  config : Config
  ftp : Option FTPConnector
  apiKey : String
  serviceID : String
  apiBase : String

/-- `NewNitradoConnector`. -/
def NewNitradoConnector (cfg : Config) : NitradoConnector :=
  { config := cfg, ftp := none, apiKey := cfg.APIKey,
    serviceID := cfg.ServiceID, apiBase := "https://api.nitrado.net" }

/-- `NitradoConnector.Name`. -/
def NitradoConnector.Name (n : NitradoConnector) : String :=
  "nitrado://" ++ n.serviceID

/-- `fetchFTPCredentials` over a modelled HTTP round-trip (`httpDo` is the
outcome of `client.Do`): 429 surfaces the rate-limit error with the
`Retry-After` value, any other non-200 surfaces the status and body, a
JSON decode failure and a non-"success" status field surface their own
errors. -/
def NitradoConnector.fetchFTPCredentials (n : NitradoConnector)
    (httpDo : Except String HTTPResponse) : Except String FTPCredentials :=
  match httpDo with
  | .error e => .error e
  | .ok resp =>
    if resp.statusCode = 429 then
      .error ("rate limited by Nitrado API (retry after: " ++ resp.retryAfter ++ ")")
    else if resp.statusCode ≠ 200 then
      .error ("Nitrado API error (status " ++ toString resp.statusCode ++ "): " ++ resp.bodyRaw)
    else
      match resp.bodyJSON with
      | .error e => .error ("failed to parse Nitrado response: " ++ e)
      | .ok api =>
        if api.status ≠ "success" then
          .error ("Nitrado API returned error: " ++ api.message)
        else
          .ok { Hostname := api.hostname, Port := api.port,
                Username := api.username, Password := api.password }

/-- `NitradoConnector.Connect`: requires api key and service id, fetches
FTP credentials, and only then constructs the FTP delegate (assigned
before its own `Connect` runs, as in the source). -/
def NitradoConnector.Connect (n : NitradoConnector)
    (httpDo : Except String HTTPResponse) (ftpNet : FTPNet) :
    NitradoConnector × Except String Unit :=
  if n.apiKey = "" then (n, .error "api_key is required for nitrado connector")
  else if n.serviceID = "" then (n, .error "service_id is required for nitrado connector")
  else
    match n.fetchFTPCredentials httpDo with
    | .error e => (n, .error ("failed to get Nitrado FTP credentials: " ++ e))
    | .ok creds =>
      let ftpConfig : Config :=
        { defaultConfig with
          ctype := "ftp", Host := creds.Hostname, Port := creds.Port,
          Username := creds.Username, Password := creds.Password,
          RemotePath := n.config.RemotePath, Include := n.config.Include,
          Exclude := n.config.Exclude, Passive := true,
          RetryAttempts := n.config.RetryAttempts,
          RetryDelay := n.config.RetryDelay,
          RetryBackoff := n.config.RetryBackoff }
      let r := (NewFTPConnector ftpConfig).Connect ftpNet
      ({ n with ftp := some r.1 }, r.2)

/-- `NitradoConnector.List`: nil-check on the delegate, then forward. -/
def NitradoConnector.List (n : NitradoConnector) (fuel : Nat) :
    Except String (List FileInfo) :=
  match n.ftp with
  | none => .error "not connected"
  | some f => f.List fuel

/-- `NitradoConnector.Download`: nil-check on the delegate, then forward. -/
def NitradoConnector.Download (n : NitradoConnector) (remotePath : String) :
    Except String Unit :=
  match n.ftp with
  | none => .error "not connected"
  | some f => f.Download remotePath

/-- `NitradoConnector.Upload`: nil-check on the delegate, then forward. -/
def NitradoConnector.Upload (n : NitradoConnector) (remotePath : String) :
    Except String Unit :=
  match n.ftp with
  | none => .error "not connected"
  | some f => f.Upload remotePath

/-! ### Connector factory (internal/connector/factory.go) -/

/-- The three connector variants, for the factory's return value. -/
inductive AnyConnector where
  | ftp : FTPConnector → AnyConnector
  | sftp : SFTPConnector → AnyConnector
  | nitrado : NitradoConnector → AnyConnector

/-- `NewConnector`: dispatch on the declared backend type; unknown types
are an error. -/
def NewConnector (cfg : Config) : Except String AnyConnector :=
  if cfg.ctype = "ftp" then .ok (.ftp (NewFTPConnector cfg))
  else if cfg.ctype = "sftp" then .ok (.sftp (NewSFTPConnector cfg))
  else if cfg.ctype = "nitrado" then .ok (.nitrado (NewNitradoConnector cfg))
  else .error ("unsupported connector type: " ++ cfg.ctype)

/-! ### Archive naming (internal/backup/archive.go) -/

/-- A UTC wall-clock instant as six calendar fields (what
`time.Now().UTC()` exposes to the `Format` call). -/
structure DateTime where
  year : Nat
  month : Nat
  day : Nat
  hour : Nat
  minute : Nat
  second : Nat
deriving Repr, DecidableEq

/-- Digit loop of Go `appendInt` (fuel-driven: each step divides by 10,
so `n + 1` fuel always suffices). -/
def digitsGo : Nat → Nat → Str
  | 0, _ => []
  | fuel+1, n =>
    if n < 10 then [Char.ofNat (48 + n)]
    else digitsGo fuel (n / 10) ++ [Char.ofNat (48 + n % 10)]

/-- The decimal digits of `n`, most significant first (Go's `appendInt`
digit generation). -/
def decimalDigits (n : Nat) : Str := digitsGo (n + 1) n

/-- Go `appendInt` with a fixed width: decimal digits zero-padded on the
left to `w` (more digits are kept when the value needs them). -/
def padInt (w n : Nat) : Str :=
  let ds := decimalDigits n
  List.replicate (w - ds.length) '0' ++ ds

/-- `time.Time.Format "2006-01-02_150405"` in UTC. -/
def goFormatTimestamp (t : DateTime) : String :=
  ⟨padInt 4 t.year ++ ['-'] ++ padInt 2 t.month ++ ['-'] ++ padInt 2 t.day ++
   ['_'] ++ padInt 2 t.hour ++ padInt 2 t.minute ++ padInt 2 t.second⟩

/-- `TimestampedFilename` (internal/backup/archive.go), with the current
UTC instant passed explicitly. -/
def TimestampedFilename (t : DateTime) : String :=
  goFormatTimestamp t ++ ".tar.gz"

/-- One staging-directory entry as visited by `filepath.Walk` in
`CreateArchive`, identified by its path components below the staging
root. -/
structure WalkEntry where
  comps : List String
  isDir : Bool
deriving Repr, DecidableEq

/-- Join path components with a separator character. -/
def joinSep (sep : Char) : List String → Str
  | [] => []
  | [x] => x.toList
  | x :: xs => x.toList ++ sep :: joinSep sep xs

/-- Modelled tar-entry naming of `CreateArchive`: `filepath.Walk` visits
each staging entry at `srcDir` + separator + (components joined by the
host separator); `filepath.Rel srcDir path` returns the components joined
by the host separator; the header name is `filepath.ToSlash` of that.
Only header names are modelled (contents are byte copies). -/
def archiveEntryNames (sep : Char) (entries : List WalkEntry) : List String :=
  entries.map fun e => toSlash sep ⟨joinSep sep e.comps⟩

/-! ### Backup orchestrator (internal/backup/manager.go)
Local-filesystem and archive side effects are recorded as an event trace;
`os.MkdirAll` / `os.Create` on the local disk are modelled as succeeding
(the claims under verification are about remote listing/download errors
and the archive step). -/

/-- `backup.Manager` (the progress reporter is modelled separately by
`progressWrite`; `Backup` treats it as an injected observer). -/
structure Manager where
  TempDir : String
  BackupLocation : String
deriving Repr, DecidableEq

/-- `backup.Stats`. -/
structure Stats where
  Files : Int
  Bytes : Int
  Duration : Int
deriving Repr, DecidableEq

/-- What the orchestrator observes of a connector once constructed: the
outcome of `Connect`, of `List`, and of `Download` per relative path. -/
structure ConnectorModel where
  connectRes : Except String Unit
  listRes : Except String (List FileInfo)
  downloadRes : String → Except String Unit

/-- Local side effects of one `Backup` run, in order. -/
inductive Ev where
  | mkdirTempDir (dir : String)
  | connected
  | listed
  | mkdirFor (dir : String)
  | createFile (path : String)
  | downloaded (path : String)
  | mkdirBackupDir (dir : String)
  | archiveCreated (path : String) (entries : List String)
deriving Repr, DecidableEq

/-- Result of the download loop of `Backup`: the extended event trace,
the staging directories and files created (deduplicated, in first-created
order), and the error that aborted the loop, if any. -/
structure DLRes where
  evs : List Ev
  dirs : List String
  fils : List String
  err : Option String
deriving Repr, DecidableEq

/-- Append-if-absent (what repeated `os.MkdirAll` amounts to). -/
def pushUniq (l : List String) (x : String) : List String :=
  if l.contains x then l else l ++ [x]

/-- The per-file download loop of `Backup`: directories are created for
completeness; for a regular file the parent directory is ensured, the
file created, and the download streamed; the first download error aborts
the loop with `download <path>: <err>`. -/
def downloadLoop (conn : ConnectorModel) :
    List FileInfo → List Ev → List String → List String → DLRes
  | [], evs, dirs, fils => ⟨evs, dirs, fils, none⟩
  | file :: rest, evs, dirs, fils =>
    if file.IsDir then
      downloadLoop conn rest (evs ++ [Ev.mkdirFor file.Path])
        (pushUniq dirs file.Path) fils
    else
      let parent := dirName file.Path
      let dirs1 := if parent = "." then dirs else pushUniq dirs parent
      let evs1 := evs ++ [Ev.mkdirFor parent, Ev.createFile file.Path]
      match conn.downloadRes file.Path with
      | .error e => ⟨evs1, dirs1, fils, some ("download " ++ file.Path ++ ": " ++ e)⟩
      | .ok _ =>
        downloadLoop conn rest (evs1 ++ [Ev.downloaded file.Path]) dirs1
          (fils ++ [file.Path])

/-- `Manager.Backup` (the non-nil connector is given by construction; the
current UTC instant and the measured wall-clock duration are passed
explicitly). Returns the event trace and the result. -/
def Manager.Backup (m : Manager) (conn : ConnectorModel) (dt : DateTime)
    (dur : Int) : List Ev × Except String (String × Stats) :=
  if m.BackupLocation = "" then ([], .error "backup location is required")
  else
    let tempDir := if m.TempDir = "" then goJoin m.BackupLocation ".tmp" else m.TempDir
    match conn.connectRes with
    | .error e => ([Ev.mkdirTempDir tempDir], .error e)
    | .ok _ =>
      match conn.listRes with
      | .error e => ([Ev.mkdirTempDir tempDir, Ev.connected], .error ("list: " ++ e))
      | .ok files =>
        let stats0 := files.foldl
          (fun (st : Stats) f =>
            if !f.IsDir then { st with Files := st.Files + 1, Bytes := st.Bytes + f.Size }
            else st)
          { Files := 0, Bytes := 0, Duration := 0 }
        let r := downloadLoop conn files
          [Ev.mkdirTempDir tempDir, Ev.connected, Ev.listed] [] []
        match r.err with
        | some e => (r.evs, .error e)
        | none =>
          let archivePath := goJoin m.BackupLocation (TimestampedFilename dt)
          let entries := r.dirs ++ r.fils
          (r.evs ++ [Ev.mkdirBackupDir m.BackupLocation,
                     Ev.archiveCreated archivePath entries],
           .ok (archivePath, { Files := stats0.Files, Bytes := stats0.Bytes, Duration := dur }))

/-! ### progressWriter (internal/backup/manager.go) -/

/-- One outcome of the underlying writer's `Write`: bytes accepted and
error (`io.Writer` contract: the accepted count is non-negative). -/
structure WriteRes where
  n : Nat
  err : Option String
deriving Repr, DecidableEq

/-- `progressWriter.Write` for one call: forwards the buffer to the
underlying writer (whose outcome is `res`), adds the accepted count to
the running total, reports the new total to the callback, and returns the
underlying outcome unchanged.  Result: (returned outcome, new running
total, value passed to the callback). -/
def progressWrite (res : WriteRes) (pn : Nat) : WriteRes × Nat × Nat :=
  (res, pn + res.n, pn + res.n)

/-- A sequence of `Write` calls through the same `progressWriter`:
returns the list of (returned outcome, callback value) pairs and the
final running total. -/
def progressRun : List WriteRes → Nat → List (WriteRes × Nat) × Nat
  | [], pn => ([], pn)
  | res :: rest, pn =>
    let w := progressWrite res pn
    let r := progressRun rest w.2.1
    ((w.1, w.2.2) :: r.1, r.2)

/-! ### Multi-server runner (internal/cli/backup.go, `runBackup`)
Each per-server `runOne` outcome is a success flag; the sequential loop
and the concurrent fan-out tally the same multiset of outcomes. -/

/-- The success/failure tally loop of `runBackup`. -/
def tallyResults (results : List Bool) : Nat × Nat :=
  results.foldl (fun t r => if r then (t.1 + 1, t.2) else (t.1, t.2 + 1)) (0, 0)

/-- The aggregate outcome of `runBackup` after the tally: a non-fatal
aggregate error whenever at least one server failed, otherwise the
success count. -/
def runBackupResult (results : List Bool) : Except String Nat :=
  let t := tallyResults results
  if t.2 > 0 then
    .error ("backup complete with failures: " ++ toString t.1 ++ " success, " ++
            toString t.2 ++ " failed")
  else .ok t.1

/-! ### Concrete fixtures (used by example-scenario claims and witnesses) -/

/-- Remote tree of the example scenario: `/data` holds `a.txt` (10 bytes)
and `b.log` (5 bytes), both regular files. -/
def exampleSession : FTPSession :=
  { listDir := fun d =>
      if d = "/data" then .ok [⟨"a.txt", 10, 0, false⟩, ⟨"b.log", 5, 0, false⟩]
      else .error "no such directory",
    retr := fun p => if p = "/data/a.txt" then .ok () else .error "no such file",
    stor := fun _ => .error "permission denied" }

/-- Example-scenario FTP server config: remote path `/data`,
include `["*"]`, exclude `["*.log"]`. -/
def exampleCfg : Config :=
  { defaultConfig with
    ctype := "ftp", Host := "game.example", Port := 21,
    Username := "u", Password := "p", RemotePath := "/data",
    Include := ["*"], Exclude := ["*.log"] }

/-- The example FTP connector with its session established. -/
def exampleFTP : FTPConnector :=
  { NewFTPConnector exampleCfg with conn := some exampleSession }

/-- The orchestrator's view of the example connector. -/
def exampleConn : ConnectorModel :=
  { connectRes := .ok (),
    listRes := exampleFTP.List 8,
    downloadRes := fun p => exampleFTP.Download p }

/-- The example manager: destination `backups`, default temp dir. -/
def exampleMgr : Manager := { TempDir := "", BackupLocation := "backups" }

/-- A fixed UTC instant for the example runs. -/
def exampleDT : DateTime := ⟨2026, 1, 2, 3, 4, 5⟩

/-- A connector whose single download always fails (for the abort-without
-archive witness). -/
def failingConn : ConnectorModel :=
  { connectRes := .ok (),
    listRes := .ok [⟨"a.txt", 10, 0, false⟩],
    downloadRes := fun _ => .error "connection reset" }

/-- SFTP config with both a key file and a password configured. -/
def bothAuthCfg : Config :=
  { defaultConfig with
    ctype := "sftp", Host := "h", Username := "u",
    Password := "pw", KeyFile := "id_rsa", RemotePath := "/d" }

/-- SFTP config with neither a key file nor a password. -/
def noAuthCfg : Config :=
  { defaultConfig with
    ctype := "sftp", Host := "h", Username := "u",
    RemotePath := "/d" }

/-- An SSH/SFTP environment in which every step succeeds. -/
def happySFTPNet : SFTPNet :=
  { readFile := fun _ => .ok "PRIVATE KEY".toList,
    parseKey := fun _ => .ok (),
    dial := fun _ => .ok (),
    newClient := .ok { walk := fun _ => .ok [], openFile := fun _ => .ok (),
                       create := fun _ => .ok () } }

/-- An FTP environment whose dial fails (for failed-Connect witnesses). -/
def deadFTPNet : FTPNet :=
  { dial := .error "connection refused", login := fun _ _ => .ok () }

/-- Nitrado config with an API key and service id. -/
def nitradoCfg : Config :=
  { defaultConfig with
    ctype := "nitrado", APIKey := "test-api-key",
    ServiceID := "12345", RemotePath := "/games/ark/",
    Include := ["*"], Exclude := ["*.log"] }

/-- The HTTP 429 response with `Retry-After: 30` of the rate-limit
scenario. -/
def rateLimited429 : HTTPResponse :=
  { statusCode := 429, retryAfter := "30", bodyRaw := "",
    bodyJSON := .error "unexpected end of JSON input" }

/-- Specification-side cumulative totals: the running total after each
write, starting from `pn` (the "total bytes accepted so far" of the
progress-reporting claim). -/
def prefixTotals (pn : Nat) : List Nat → List Nat
  | [] => []
  | n :: ns => (pn + n) :: prefixTotals (pn + n) ns

/-- Specification-side shape predicate for archive file names:
`YYYY-MM-DD_HHMMSS.tar.gz` with all-digit fields of widths 4,2,2,2,2,2. -/
def isTimestampName (s : String) : Prop :=
  ∃ y mo d h mi se : Str,
    s.toList = y ++ ['-'] ++ mo ++ ['-'] ++ d ++ ['_'] ++ h ++ mi ++ se ++
      ".tar.gz".toList ∧
    y.length = 4 ∧ mo.length = 2 ∧ d.length = 2 ∧
    h.length = 2 ∧ mi.length = 2 ∧ se.length = 2 ∧
    ∀ c ∈ y ++ mo ++ d ++ h ++ mi ++ se, c.isDigit = true

/-! ## Theorems -/

/-! ### Shared helper lemmas -/

theorem tally_foldl (l : List Bool) (a b : Nat) :
    l.foldl (fun t r => if r then (t.1 + 1, t.2) else (t.1, t.2 + 1)) (a, b) =
      (a + l.count true, b + l.count false) := by
  induction l generalizing a b with
  | nil => simp
  | cons x xs ih =>
    cases x <;> simp [List.count_cons, ih] <;> omega

theorem tallyResults_eq (l : List Bool) :
    tallyResults l = (l.count true, l.count false) := by
  simpa using tally_foldl l 0 0

theorem count_bool_total (l : List Bool) : l.count true + l.count false = l.length := by
  induction l with
  | nil => simp
  | cons x xs ih => cases x <;> simp [List.count_cons] <;> omega

theorem progressRun_spec (resps : List WriteRes) (pn : Nat) :
    (progressRun resps pn).1.map Prod.fst = resps ∧
    (progressRun resps pn).1.map Prod.snd = prefixTotals pn (resps.map WriteRes.n) ∧
    (progressRun resps pn).2 = pn + (resps.map WriteRes.n).sum := by
  induction resps generalizing pn with
  | nil => simp [progressRun, prefixTotals]
  | cons r rest ih =>
    have h := ih (pn + r.n)
    simp [progressRun, progressWrite, prefixTotals, h.1, h.2.1, h.2.2]
    omega

theorem prefixTotals_chain (pn : Nat) (l : List Nat) :
    List.Chain' (· ≤ ·) (pn :: prefixTotals pn l) := by
  induction l generalizing pn with
  | nil => simp [prefixTotals]
  | cons n ns ih =>
    have h := ih (pn + n)
    simp only [prefixTotals, List.chain'_cons]
    exact ⟨by omega, by simpa using h⟩

theorem excludeMatches_dirSlash (p : String) :
    excludeMatches p "dir/" =
      (strHasPrefix p "dir/" || strHasPrefix p "dir\\" || p == "dir") := by
  have h1 : strHasSuffix "dir/" "/" = true := by decide
  have h2 : strTrimSuffix "dir/" "/" = "dir" := by decide
  have h3 : "dir" ++ "/" = "dir/" := by decide
  have h4 : "dir" ++ "\\" = "dir\\" := by decide
  simp [excludeMatches, h1, h2, h3, h4]

/-! ### C2 -/

/-- C2: when exactly one of the per-server outcomes is a failure, the
runner tallies exactly 1 failure and N-1 successes, every server is
tallied (no abort of the remaining servers), and the aggregate result of
`runBackup` is an error reflecting the partial failure. -/
theorem C2_partial_failure_tally (results : List Bool)
    (hone : results.count false = 1) :
    (tallyResults results).2 = 1 ∧
    (tallyResults results).1 = results.length - 1 ∧
    (tallyResults results).1 + (tallyResults results).2 = results.length ∧
    ∃ msg, runBackupResult results = .error msg := by
  have ht := tallyResults_eq results
  have hc := count_bool_total results
  have h2 : (tallyResults results).2 = 1 := by rw [ht]; exact hone
  have h1 : (tallyResults results).1 = results.length - 1 := by
    rw [ht]; show results.count true = results.length - 1; omega
  have h3 : (tallyResults results).1 + (tallyResults results).2 = results.length := by
    rw [ht]; exact hc
  refine ⟨h2, h1, h3,
    ⟨"backup complete with failures: " ++ toString (results.count true) ++
      " success, " ++ toString (1 : Nat) ++ " failed", ?_⟩⟩
  simp only [runBackupResult, ht, hone]
  rfl

/-- Witness for C2: three servers, the middle one failing, tally (2, 1)
and an aggregate error. -/
theorem C2_partial_failure_tally_witness :
    [true, false, true].count false = 1 ∧
    (tallyResults [true, false, true]).2 = 1 ∧
    (tallyResults [true, false, true]).1 = 2 ∧
    ∃ msg, runBackupResult [true, false, true] = .error msg := by
  have h := C2_partial_failure_tally [true, false, true] (by decide)
  exact ⟨by decide, h.1, by simpa using h.2.1, h.2.2.2⟩

/-! ### C4 -/

/-- C4: exclusion takes precedence in `MatchesPatterns`: whenever the
path matches some exclude pattern (and even some include pattern as
well), the result is false. -/
theorem C4_exclude_precedence (path : String) (includePats excludePats : List String)
    (hex : excludePats.any (fun pat => excludeMatches path pat) = true)
    (hin : includePats.any (fun pat => includeMatches path pat) = true) :
    MatchesPatterns path includePats excludePats = false := by
  simp [MatchesPatterns, hex]

/-- Witness for C4: `a.log` matches both include `*.log` and exclude
`*.log`; the matcher rejects it. -/
theorem C4_exclude_precedence_witness :
    ["*.log"].any (fun pat => excludeMatches "a.log" pat) = true ∧
    ["*.log"].any (fun pat => includeMatches "a.log" pat) = true ∧
    MatchesPatterns "a.log" ["*.log"] ["*.log"] = false :=
  ⟨by decide, by decide,
   C4_exclude_precedence "a.log" ["*.log"] ["*.log"] (by decide) (by decide)⟩

/-! ### C3 -/

/-- C3 counterexample: the claim "an exclude pattern `dir/` rejects
exactly `dir` and paths starting with `dir/`, and accepts everything
else independent of include patterns" is false on the code: the path
`dir\x` (Windows-separator prefix) is rejected although it neither
equals `dir` nor starts with `dir/`; and with include `["y"]` the
unexcluuded path `x` is also rejected. -/
theorem C3_counterexample :
    (MatchesPatterns "dir\\x" [] ["dir/"] = false ∧
      ¬("dir\\x" = "dir" ∨ strHasPrefix "dir\\x" "dir/" = true)) ∧
    (MatchesPatterns "x" ["y"] ["dir/"] = false ∧
      ¬("x" = "dir" ∨ strHasPrefix "x" "dir/" = true)) := by
  refine ⟨⟨?_, ?_⟩, ?_, ?_⟩ <;> decide

/-- C3 (amended): an exclude pattern `dir/` makes the matcher reject
`p = "dir"` and every `p` starting with `dir/` or with `dir\`,
regardless of the include patterns (exact prefix matching, not glob);
every other path passes the exclude check and is accepted iff it
matches the include patterns — in particular, every other path is
accepted under the default (empty) include list. -/
theorem C3_amended_dir_exclude (p : String) (includePats : List String) :
    ((p = "dir" ∨ strHasPrefix p "dir/" = true ∨ strHasPrefix p "dir\\" = true) →
      MatchesPatterns p includePats ["dir/"] = false) ∧
    (¬(p = "dir" ∨ strHasPrefix p "dir/" = true ∨ strHasPrefix p "dir\\" = true) →
      MatchesPatterns p includePats ["dir/"] =
        (if includePats.isEmpty then ["*"] else includePats).any
          (fun pat => includeMatches p pat) ∧
      MatchesPatterns p [] ["dir/"] = true) := by
  have hEx := excludeMatches_dirSlash p
  constructor
  · intro h
    have : excludeMatches p "dir/" = true := by
      rw [hEx]
      rcases h with h | h | h
      · simp [h]
      · simp [h]
      · simp [h]
    simp [MatchesPatterns, this]
  · intro h
    push_neg at h
    have : excludeMatches p "dir/" = false := by
      rw [hEx]
      simp only [Bool.or_eq_false_iff, beq_eq_false_iff_ne]
      exact ⟨⟨by simpa using h.2.1, by simpa using h.2.2⟩, h.1⟩
    constructor
    · simp [MatchesPatterns, this]
    · simp [MatchesPatterns, this, includeMatches]

/-- Witness for C3 (amended): `dir/sub` is rejected whatever the
includes; `other.txt` is accepted under the default include list. -/
theorem C3_amended_dir_exclude_witness :
    ("dir/sub" = "dir" ∨ strHasPrefix "dir/sub" "dir/" = true ∨
      strHasPrefix "dir/sub" "dir\\" = true) ∧
    MatchesPatterns "dir/sub" ["*"] ["dir/"] = false ∧
    MatchesPatterns "other.txt" [] ["dir/"] = true := by
  refine ⟨by decide, (C3_amended_dir_exclude "dir/sub" ["*"]).1 (by decide), ?_⟩
  exact ((C3_amended_dir_exclude "other.txt" []).2 (by decide)).2

/-! ### C10 -/

/-- C10: every `Write` through `progressWriter` returns exactly the
underlying writer's byte count and error; the value passed to the
progress callback after each write is the cumulative total accepted so
far; those callback values are monotonically non-decreasing; and on
success the final total equals the sum of all accepted byte counts (the
file's downloaded bytes). -/
theorem C10_progress_writer (resps : List WriteRes) :
    ((progressRun resps 0).1.map Prod.fst = resps) ∧
    ((progressRun resps 0).1.map Prod.snd = prefixTotals 0 (resps.map WriteRes.n)) ∧
    List.Chain' (· ≤ ·) ((progressRun resps 0).1.map Prod.snd) ∧
    ((∀ r ∈ resps, r.err = none) →
      (progressRun resps 0).2 = (resps.map WriteRes.n).sum) := by
  have h := progressRun_spec resps 0
  refine ⟨h.1, h.2.1, ?_, fun _ => by simpa using h.2.2⟩
  rw [h.2.1]
  exact (prefixTotals_chain 0 (resps.map WriteRes.n)).tail

/-- Witness for C10: two successful writes of 5 and 3 bytes; callbacks
see 5 then 8 and the final total is 8. -/
theorem C10_progress_writer_witness :
    (∀ r ∈ [WriteRes.mk 5 none, WriteRes.mk 3 none], r.err = none) ∧
    (progressRun [WriteRes.mk 5 none, WriteRes.mk 3 none] 0).2 = 8 := by
  have h := C10_progress_writer [WriteRes.mk 5 none, WriteRes.mk 3 none]
  exact ⟨by decide, by simpa using h.2.2.2 (by decide)⟩

/-! ### C5 helper -/

theorem ftpConnect_err_conn (f : FTPConnector) (net : FTPNet)
    (f' : FTPConnector) (e : String) (h : f.Connect net = (f', .error e)) :
    f'.conn = f.conn := by
  simp only [FTPConnector.Connect] at h
  cases hd : net.dial with
  | error e2 =>
    rw [hd] at h
    injection h with h1 h2
    rw [← h1]
  | ok sess =>
    rw [hd] at h
    cases hl : net.login f.config.Username f.config.Password with
    | error e3 =>
      rw [hl] at h
      injection h with h1 h2
      rw [← h1]
    | ok u =>
      rw [hl] at h
      injection h with h1 h2
      exact absurd h2 (by simp)

/-! ### C5 -/

/-- C5: for each of the three connector variants (direct-FTP,
direct-SFTP, vendor-API resolver), invoking `List`, `Download` or
`Upload` on a freshly constructed connector, or after any failed
`Connect`, returns the "not connected" error (the methods are total
functions — no panic). -/
theorem C5_not_connected (cfg : Config) :
    ((∀ fuel, (NewFTPConnector cfg).List fuel = .error "not connected") ∧
     (∀ p, (NewFTPConnector cfg).Download p = .error "not connected") ∧
     (∀ p, (NewFTPConnector cfg).Upload p = .error "not connected")) ∧
    (((NewSFTPConnector cfg).List = .error "not connected") ∧
     (∀ p, (NewSFTPConnector cfg).Download p = .error "not connected") ∧
     (∀ p, (NewSFTPConnector cfg).Upload p = .error "not connected")) ∧
    ((∀ fuel, (NewNitradoConnector cfg).List fuel = .error "not connected") ∧
     (∀ p, (NewNitradoConnector cfg).Download p = .error "not connected") ∧
     (∀ p, (NewNitradoConnector cfg).Upload p = .error "not connected")) ∧
    (∀ net f' e, (NewFTPConnector cfg).Connect net = (f', .error e) →
      (∀ fuel, f'.List fuel = .error "not connected") ∧
      (∀ p, f'.Download p = .error "not connected") ∧
      (∀ p, f'.Upload p = .error "not connected")) ∧
    (∀ net s' e, (NewSFTPConnector cfg).Connect net = (s', .error e) →
      (s'.List = .error "not connected") ∧
      (∀ p, s'.Download p = .error "not connected") ∧
      (∀ p, s'.Upload p = .error "not connected")) ∧
    (∀ httpDo ftpNet n' e,
      (NewNitradoConnector cfg).Connect httpDo ftpNet = (n', .error e) →
      (∀ fuel, n'.List fuel = .error "not connected") ∧
      (∀ p, n'.Download p = .error "not connected") ∧
      (∀ p, n'.Upload p = .error "not connected")) := by
  refine ⟨⟨fun _ => rfl, fun _ => rfl, fun _ => rfl⟩,
          ⟨rfl, fun _ => rfl, fun _ => rfl⟩,
          ⟨fun _ => rfl, fun _ => rfl, fun _ => rfl⟩, ?_, ?_, ?_⟩
  · intro net f' e h
    have hc : f'.conn = none := ftpConnect_err_conn _ _ _ _ h
    exact ⟨fun fuel => by simp [FTPConnector.List, hc],
           fun p => by simp [FTPConnector.Download, hc],
           fun p => by simp [FTPConnector.Upload, hc]⟩
  · intro net s' e h
    have hc : s'.sftpClient = none := by
      simp only [SFTPConnector.Connect] at h
      split at h
      · injection h with h1 h2
        rw [← h1]
        rfl
      · split at h
        · injection h with h1 h2
          rw [← h1]
          rfl
        · split at h
          · injection h with h1 h2
            rw [← h1]
            rfl
          · injection h with h1 h2
            exact absurd h2 (by simp)
    exact ⟨by simp [SFTPConnector.List, hc],
           fun p => by simp [SFTPConnector.Download, hc],
           fun p => by simp [SFTPConnector.Upload, hc]⟩
  · intro httpDo ftpNet n' e h
    simp only [NitradoConnector.Connect] at h
    split at h
    · injection h with h1 h2
      rw [← h1]
      exact ⟨fun _ => rfl, fun _ => rfl, fun _ => rfl⟩
    · split at h
      · injection h with h1 h2
        rw [← h1]
        exact ⟨fun _ => rfl, fun _ => rfl, fun _ => rfl⟩
      · split at h
        · injection h with h1 h2
          rw [← h1]
          exact ⟨fun _ => rfl, fun _ => rfl, fun _ => rfl⟩
        · rename_i creds hcreds
          injection h with h1 h2
          cases hC : (NewFTPConnector
              { defaultConfig with
                ctype := "ftp", Host := creds.Hostname, Port := creds.Port,
                Username := creds.Username, Password := creds.Password,
                RemotePath := (NewNitradoConnector cfg).config.RemotePath,
                Include := (NewNitradoConnector cfg).config.Include,
                Exclude := (NewNitradoConnector cfg).config.Exclude,
                Passive := true,
                RetryAttempts := (NewNitradoConnector cfg).config.RetryAttempts,
                RetryDelay := (NewNitradoConnector cfg).config.RetryDelay,
                RetryBackoff := (NewNitradoConnector cfg).config.RetryBackoff }).Connect
              ftpNet with
          | mk f2 res2 =>
            rw [hC] at h1 h2
            simp only at h1 h2
            rw [h2] at hC
            have hcn : f2.conn = none :=
              (ftpConnect_err_conn _ ftpNet f2 e hC).trans rfl
            rw [← h1]
            exact ⟨fun fuel => by
                     simp [NitradoConnector.List, FTPConnector.List, hcn],
                   fun p => by
                     simp [NitradoConnector.Download, FTPConnector.Download, hcn],
                   fun p => by
                     simp [NitradoConnector.Upload, FTPConnector.Upload, hcn]⟩

/-- Witness for C5: a fresh FTP connector, a fresh SFTP connector, a
fresh vendor-API connector, and an FTP connector whose dial failed, all
answer "not connected". -/
theorem C5_not_connected_witness :
    (NewFTPConnector exampleCfg).Connect deadFTPNet =
      (NewFTPConnector exampleCfg, .error "failed to connect to FTP: connection refused") ∧
    (NewFTPConnector exampleCfg).List 3 = .error "not connected" ∧
    (NewSFTPConnector noAuthCfg).Download "f" = .error "not connected" ∧
    (NewNitradoConnector nitradoCfg).Upload "f" = .error "not connected" := by
  refine ⟨rfl, ?_, ?_, ?_⟩
  · exact ((C5_not_connected exampleCfg).2.2.2.1 deadFTPNet _ _ rfl).1 3
  · exact (C5_not_connected noAuthCfg).2.1.2.1 "f"
  · exact (C5_not_connected nitradoCfg).2.2.1.2.2 "f"

/-! ### C1 helpers: download-loop lemmas and a Backup inversion lemma -/

theorem downloadLoop_archive_mem (conn : ConnectorModel) (l : List FileInfo)
    (evs : List Ev) (dirs fils : List String) (p : String) (en : List String)
    (h : Ev.archiveCreated p en ∈ (downloadLoop conn l evs dirs fils).evs) :
    Ev.archiveCreated p en ∈ evs := by
  induction l generalizing evs dirs fils with
  | nil => simpa [downloadLoop] using h
  | cons f rest ih =>
    by_cases hd : f.IsDir
    · have h2 := ih (evs ++ [Ev.mkdirFor f.Path]) (pushUniq dirs f.Path) fils
        (by simpa [downloadLoop, hd] using h)
      simpa using h2
    · rw [downloadLoop] at h
      simp only [hd, Bool.false_eq_true, if_false] at h
      cases hres : conn.downloadRes f.Path with
      | error e =>
        rw [hres] at h
        simpa using h
      | ok u =>
        rw [hres] at h
        have h2 := ih _ _ _ h
        simpa using h2

theorem downloadLoop_err_some (conn : ConnectorModel) (l : List FileInfo)
    (evs : List Ev) (dirs fils : List String) (f : FileInfo) (e : String)
    (hf : f ∈ l) (hnd : f.IsDir = false)
    (he : conn.downloadRes f.Path = .error e) :
    ∃ e2, (downloadLoop conn l evs dirs fils).err = some e2 := by
  induction l generalizing evs dirs fils with
  | nil => cases hf
  | cons g rest ih =>
    by_cases hd : g.IsDir
    · rcases List.mem_cons.mp hf with hg | hg
      · subst hg
        rw [hnd] at hd
        cases hd
      · rw [downloadLoop]
        simp only [hd, if_true]
        exact ih _ _ _ hg
    · rw [downloadLoop]
      simp only [hd, Bool.false_eq_true, if_false]
      rcases List.mem_cons.mp hf with hg | hg
      · subst hg
        rw [he]
        exact ⟨_, rfl⟩
      · cases hres : conn.downloadRes g.Path with
        | error e3 => exact ⟨_, rfl⟩
        | ok u => exact ih _ _ _ hg

theorem downloadLoop_err_none (conn : ConnectorModel) (l : List FileInfo)
    (evs : List Ev) (dirs fils : List String)
    (h : (downloadLoop conn l evs dirs fils).err = none) :
    ∀ f ∈ l, f.IsDir = false → conn.downloadRes f.Path = .ok () := by
  induction l generalizing evs dirs fils with
  | nil => intro f hf; cases hf
  | cons g rest ih =>
    intro f hf hnd
    by_cases hd : g.IsDir
    · rw [downloadLoop] at h
      simp only [hd, if_true] at h
      rcases List.mem_cons.mp hf with hg | hg
      · subst hg
        rw [hnd] at hd
        cases hd
      · exact ih _ _ _ h f hg hnd
    · rw [downloadLoop] at h
      simp only [hd, Bool.false_eq_true, if_false] at h
      cases hres : conn.downloadRes g.Path with
      | error e3 =>
        rw [hres] at h
        simp at h
      | ok u =>
        rw [hres] at h
        rcases List.mem_cons.mp hf with hg | hg
        · subst hg
          cases u
          exact hres
        · exact ih _ _ _ h f hg hnd

/-- Full inversion of the `Backup` state machine: every run falls into
exactly one of the five exit shapes (missing location, connect error,
list error, download error, success). -/
theorem Backup_inv (m : Manager) (conn : ConnectorModel) (dt : DateTime)
    (dur : Int) (trace : List Ev) (res : Except String (String × Stats))
    (hB : m.Backup conn dt dur = (trace, res)) :
    (let tempDir := if m.TempDir = "" then goJoin m.BackupLocation ".tmp" else m.TempDir
     let dl := fun files => downloadLoop conn files
       [Ev.mkdirTempDir tempDir, Ev.connected, Ev.listed] [] []
     let stats0 := fun files : List FileInfo => files.foldl
       (fun (st : Stats) f =>
         if !f.IsDir then { st with Files := st.Files + 1, Bytes := st.Bytes + f.Size }
         else st)
       { Files := 0, Bytes := 0, Duration := 0 }
     (m.BackupLocation = "" ∧ trace = [] ∧
        res = .error "backup location is required") ∨
     (m.BackupLocation ≠ "" ∧
       ((∃ e, conn.connectRes = .error e ∧
           trace = [Ev.mkdirTempDir tempDir] ∧ res = .error e) ∨
        (conn.connectRes = .ok () ∧
          ((∃ e, conn.listRes = .error e ∧
              trace = [Ev.mkdirTempDir tempDir, Ev.connected] ∧
              res = .error ("list: " ++ e)) ∨
           (∃ files, conn.listRes = .ok files ∧
             ((∃ e, (dl files).err = some e ∧
                 trace = (dl files).evs ∧ res = .error e) ∨
              ((dl files).err = none ∧
                trace = (dl files).evs ++
                  [Ev.mkdirBackupDir m.BackupLocation,
                   Ev.archiveCreated (goJoin m.BackupLocation (TimestampedFilename dt))
                     ((dl files).dirs ++ (dl files).fils)] ∧
                res = .ok (goJoin m.BackupLocation (TimestampedFilename dt),
                  { Files := (stats0 files).Files, Bytes := (stats0 files).Bytes,
                    Duration := dur }))))))))) := by
  dsimp only
  simp only [Manager.Backup] at hB
  split at hB
  · rename_i hbl
    injection hB with h1 h2
    exact Or.inl ⟨hbl, h1.symm, h2.symm⟩
  · rename_i hbl
    right
    refine ⟨hbl, ?_⟩
    split at hB
    · rename_i e heq
      injection hB with h1 h2
      exact Or.inl ⟨e, heq, h1.symm, h2.symm⟩
    · rename_i u heq
      cases u
      right
      refine ⟨heq, ?_⟩
      split at hB
      · rename_i e heq2
        injection hB with h1 h2
        exact Or.inl ⟨e, heq2, h1.symm, h2.symm⟩
      · rename_i files heq2
        right
        refine ⟨files, heq2, ?_⟩
        split at hB
        · rename_i e heq3
          injection hB with h1 h2
          exact Or.inl ⟨e, heq3, h1.symm, h2.symm⟩
        · rename_i heq3
          injection hB with h1 h2
          exact Or.inr ⟨heq3, h1.symm, h2.symm⟩

/-! ### C1 -/

/-- C1: for every connector model and every `Backup` run, an archive is
only produced after every listed non-directory file has been downloaded
without error: a listing error or any single download error makes
`Backup` return an error with no archive-creation event in the trace,
and conversely an archive-creation event in the trace implies the
listing succeeded and every non-directory listed file downloaded
successfully. -/
theorem C1_no_partial_archive (m : Manager) (conn : ConnectorModel)
    (dt : DateTime) (dur : Int) :
    (∀ e, conn.listRes = .error e →
      (∃ e2, (m.Backup conn dt dur).2 = .error e2) ∧
      ∀ p en, Ev.archiveCreated p en ∉ (m.Backup conn dt dur).1) ∧
    (∀ files f e, conn.listRes = .ok files → f ∈ files → f.IsDir = false →
      conn.downloadRes f.Path = .error e →
      (∃ e2, (m.Backup conn dt dur).2 = .error e2) ∧
      ∀ p en, Ev.archiveCreated p en ∉ (m.Backup conn dt dur).1) ∧
    (∀ p en, Ev.archiveCreated p en ∈ (m.Backup conn dt dur).1 →
      ∃ files, conn.listRes = .ok files ∧
        ∀ f ∈ files, f.IsDir = false → conn.downloadRes f.Path = .ok ()) := by
  cases hBp : m.Backup conn dt dur with
  | mk trace res =>
    simp only [hBp]
    have hinv := Backup_inv m conn dt dur trace res hBp
    dsimp only at hinv
    rcases hinv with ⟨hbl, htr, hres⟩ |
      ⟨hbl, ⟨e0, hc, htr, hres⟩ |
        ⟨hc, ⟨e0, hl, htr, hres⟩ |
          ⟨files, hl, ⟨e0, herr, htr, hres⟩ | ⟨herr, htr, hres⟩⟩⟩⟩
    · exact ⟨fun e he => ⟨⟨_, hres⟩, fun p en => by rw [htr]; simp⟩,
             fun files f e hlok hf hnd he =>
               ⟨⟨_, hres⟩, fun p en => by rw [htr]; simp⟩,
             fun p en hmem => by rw [htr] at hmem; simp at hmem⟩
    · exact ⟨fun e he => ⟨⟨_, hres⟩, fun p en => by rw [htr]; simp⟩,
             fun files f e hlok hf hnd he =>
               ⟨⟨_, hres⟩, fun p en => by rw [htr]; simp⟩,
             fun p en hmem => by rw [htr] at hmem; simp at hmem⟩
    · exact ⟨fun e he => ⟨⟨_, hres⟩, fun p en => by rw [htr]; simp⟩,
             fun files f e hlok hf hnd he =>
               ⟨⟨_, hres⟩, fun p en => by rw [htr]; simp⟩,
             fun p en hmem => by rw [htr] at hmem; simp at hmem⟩
    · refine ⟨fun e he => ?_, fun files2 f e hlok hf hnd he => ?_, fun p en hmem => ?_⟩
      · rw [hl] at he
        cases he
      · refine ⟨⟨_, hres⟩, fun p en hmem => ?_⟩
        rw [htr] at hmem
        have h2 := downloadLoop_archive_mem _ _ _ _ _ _ _ hmem
        simp at h2
      · rw [htr] at hmem
        have h2 := downloadLoop_archive_mem _ _ _ _ _ _ _ hmem
        simp at h2
    · refine ⟨fun e he => ?_, fun files2 f e hlok hf hnd he => ?_, fun p en hmem => ?_⟩
      · rw [hl] at he
        cases he
      · rw [hl] at hlok
        injection hlok with hfe
        subst hfe
        have h2 := downloadLoop_err_none _ _ _ _ _ herr f hf hnd
        rw [he] at h2
        cases h2
      · exact ⟨files, hl, downloadLoop_err_none _ _ _ _ _ herr⟩

/-- Witness for C1: a connector whose only listed file fails to
download; `Backup` errors and the trace has no archive-creation event. -/
theorem C1_no_partial_archive_witness :
    failingConn.downloadRes "a.txt" = .error "connection reset" ∧
    (∃ e2, (exampleMgr.Backup failingConn exampleDT 7).2 = .error e2) ∧
    (∀ p en, Ev.archiveCreated p en ∉ (exampleMgr.Backup failingConn exampleDT 7).1) := by
  have h := (C1_no_partial_archive exampleMgr failingConn exampleDT 7).2.1
    [⟨"a.txt", 10, 0, false⟩] ⟨"a.txt", 10, 0, false⟩ "connection reset"
    rfl (by simp) rfl rfl
  exact ⟨rfl, h.1, h.2⟩

/-! ### C8 -/

theorem backup_stats_foldl (files : List FileInfo) (a b : Int) :
    files.foldl
      (fun (st : Stats) f =>
        if !f.IsDir then { st with Files := st.Files + 1, Bytes := st.Bytes + f.Size }
        else st)
      { Files := a, Bytes := b, Duration := 0 } =
    { Files := a + ((files.filter fun f => !f.IsDir).length : Int),
      Bytes := b + ((files.filter fun f => !f.IsDir).map FileInfo.Size).sum,
      Duration := 0 } := by
  induction files generalizing a b with
  | nil => simp
  | cons f rest ih =>
    rw [List.foldl_cons]
    by_cases hd : f.IsDir
    · rw [if_neg (by simp [hd])]
      rw [ih]
      simp [hd]
    · rw [if_pos (by simp [hd])]
      rw [ih]
      simp only [List.filter_cons, hd, Bool.not_false, if_true, List.length_cons,
        List.map_cons, List.sum_cons, Stats.mk.injEq]
      refine ⟨?_, ?_, trivial⟩ <;> push_cast <;> omega

/-- C8: in the example scenario (remote path `/data`, include `["*"]`,
exclude `["*.log"]`, listing `a.txt` 10 bytes and `b.log` 5 bytes) the
filtered listing keeps exactly `a.txt`, only `a.txt` is downloaded, the
stats report 1 file and 10 bytes, and the produced archive holds exactly
the entry `a.txt`; in general a successful `Backup`'s stats equal the
count and size-sum of the non-directory entries of the filtered listing. -/
theorem C8_example_scenario :
    exampleSession.listDir "/data" =
      .ok [⟨"a.txt", 10, 0, false⟩, ⟨"b.log", 5, 0, false⟩] ∧
    exampleConn.listRes = .ok [⟨"a.txt", 10, 0, false⟩] ∧
    (exampleMgr.Backup exampleConn exampleDT 7).2 =
      .ok ("backups/2026-01-02_030405.tar.gz",
           { Files := 1, Bytes := 10, Duration := 7 }) ∧
    ((exampleMgr.Backup exampleConn exampleDT 7).1.filter
       (fun ev => match ev with | Ev.downloaded _ => true | _ => false)) =
      [Ev.downloaded "a.txt"] ∧
    (exampleMgr.Backup exampleConn exampleDT 7).1.getLast? =
      some (Ev.archiveCreated "backups/2026-01-02_030405.tar.gz" ["a.txt"]) ∧
    (∀ (m : Manager) (conn : ConnectorModel) (dt : DateTime) (dur : Int)
       (files : List FileInfo) (path : String) (st : Stats),
      conn.listRes = .ok files →
      (m.Backup conn dt dur).2 = .ok (path, st) →
      st.Files = ((files.filter fun f => !f.IsDir).length : Int) ∧
      st.Bytes = ((files.filter fun f => !f.IsDir).map FileInfo.Size).sum) := by
  refine ⟨rfl, rfl, rfl, rfl, rfl, ?_⟩
  intro m conn dt dur files path st hl hok
  cases hBp : m.Backup conn dt dur with
  | mk trace res =>
    rw [hBp] at hok
    simp only at hok
    have hinv := Backup_inv m conn dt dur trace res hBp
    dsimp only at hinv
    rcases hinv with ⟨hbl, htr, hres⟩ |
      ⟨hbl, ⟨e0, hc, htr, hres⟩ |
        ⟨hc, ⟨e0, hl2, htr, hres⟩ |
          ⟨files2, hl2, ⟨e0, herr, htr, hres⟩ | ⟨herr, htr, hres⟩⟩⟩⟩
    · rw [hres] at hok; cases hok
    · rw [hres] at hok; cases hok
    · rw [hres] at hok; cases hok
    · rw [hres] at hok; cases hok
    · rw [hl] at hl2
      injection hl2 with hfe
      subst hfe
      rw [hres] at hok
      injection hok with hpair
      have hst := (Prod.mk.injEq _ _ _ _).mp hpair
      rw [← hst.2]
      rw [backup_stats_foldl files 0 0]
      constructor <;> simp

/-- Witness for C8's general stats clause, instantiated at the example
scenario. -/
theorem C8_example_scenario_witness :
    ({ Files := 1, Bytes := 10, Duration := 7 } : Stats).Files =
      (([(⟨"a.txt", 10, 0, false⟩ : FileInfo)].filter fun f => !f.IsDir).length : Int) ∧
    ({ Files := 1, Bytes := 10, Duration := 7 } : Stats).Bytes =
      (([(⟨"a.txt", 10, 0, false⟩ : FileInfo)].filter fun f => !f.IsDir).map
        FileInfo.Size).sum :=
  C8_example_scenario.2.2.2.2.2 exampleMgr exampleConn exampleDT 7
    [⟨"a.txt", 10, 0, false⟩] "backups/2026-01-02_030405.tar.gz"
    { Files := 1, Bytes := 10, Duration := 7 } rfl rfl

/-! ### C9 helpers -/

theorem digitChar_isDigit (d : Nat) (h : d < 10) :
    (Char.ofNat (48 + d)).isDigit = true := by
  interval_cases d <;> decide

theorem digitsGo_digits (fuel : Nat) : ∀ n, n < fuel →
    ∀ c ∈ digitsGo fuel n, c.isDigit = true := by
  induction fuel with
  | zero => intro n h; omega
  | succ fuel ih =>
    intro n h c hc
    rw [digitsGo] at hc
    by_cases h10 : n < 10
    · rw [if_pos h10] at hc
      simp only [List.mem_singleton] at hc
      subst hc
      exact digitChar_isDigit n h10
    · rw [if_neg h10] at hc
      rcases List.mem_append.mp hc with hc | hc
      · exact ih (n / 10) (by omega) c hc
      · simp only [List.mem_singleton] at hc
        subst hc
        exact digitChar_isDigit (n % 10) (Nat.mod_lt _ (by omega))

theorem digitsGo_length_le (fuel : Nat) : ∀ n k, n < fuel → n < 10 ^ k → 1 ≤ k →
    (digitsGo fuel n).length ≤ k := by
  induction fuel with
  | zero => intro n k h; omega
  | succ fuel ih =>
    intro n k h hk h1
    rw [digitsGo]
    by_cases h10 : n < 10
    · rw [if_pos h10]
      simpa using h1
    · rw [if_neg h10]
      obtain ⟨k2, rfl⟩ : ∃ k2, k = k2 + 1 := ⟨k - 1, by omega⟩
      have hk2 : 1 ≤ k2 := by
        rcases Nat.eq_zero_or_pos k2 with h0 | h0
        · subst h0
          simp [pow_one] at hk
          omega
        · exact h0
      have hdiv : n / 10 < 10 ^ k2 := by
        have hmul : n < 10 ^ k2 * 10 := by
          rw [← pow_succ]
          exact hk
        exact Nat.div_lt_of_lt_mul (by omega)
      have hlen := ih (n / 10) k2 (by omega) hdiv hk2
      simp only [List.length_append, List.length_cons, List.length_nil]
      omega

theorem padInt_length (w n : Nat) (hn : n < 10 ^ w) (hw : 1 ≤ w) :
    (padInt w n).length = w := by
  have hle := digitsGo_length_le (n + 1) n w (by omega) hn hw
  simp only [padInt, decimalDigits, List.length_append, List.length_replicate]
  omega

theorem padInt_length_ge (w n : Nat) : w ≤ (padInt w n).length := by
  simp only [padInt, List.length_append, List.length_replicate]
  omega

theorem padInt_digits (w n : Nat) : ∀ c ∈ padInt w n, c.isDigit = true := by
  intro c hc
  simp only [padInt] at hc
  rcases List.mem_append.mp hc with hc | hc
  · rw [List.eq_of_mem_replicate hc]
    decide
  · exact digitsGo_digits (n + 1) n (by omega) c hc

theorem timestampName_toList (t : DateTime) :
    (TimestampedFilename t).toList =
      padInt 4 t.year ++ ['-'] ++ padInt 2 t.month ++ ['-'] ++ padInt 2 t.day ++
      ['_'] ++ padInt 2 t.hour ++ padInt 2 t.minute ++ padInt 2 t.second ++
      ".tar.gz".toList := by
  show (goFormatTimestamp t ++ ".tar.gz").data = _
  rw [String.data_append]
  simp [goFormatTimestamp]

theorem timestampName_shape (t : DateTime) (hy : t.year < 10000)
    (hmo : t.month < 100) (hd : t.day < 100) (hh : t.hour < 100)
    (hmi : t.minute < 100) (hs : t.second < 100) :
    isTimestampName (TimestampedFilename t) := by
  refine ⟨padInt 4 t.year, padInt 2 t.month, padInt 2 t.day,
          padInt 2 t.hour, padInt 2 t.minute, padInt 2 t.second,
          by rw [timestampName_toList], ?_, ?_, ?_, ?_, ?_, ?_, ?_⟩
  · exact padInt_length 4 t.year (by simpa using hy) (by omega)
  · exact padInt_length 2 t.month (by simpa using hmo) (by omega)
  · exact padInt_length 2 t.day (by simpa using hd) (by omega)
  · exact padInt_length 2 t.hour (by simpa using hh) (by omega)
  · exact padInt_length 2 t.minute (by simpa using hmi) (by omega)
  · exact padInt_length 2 t.second (by simpa using hs) (by omega)
  · intro c hc
    rcases List.mem_append.mp hc with hc | hc
    · rcases List.mem_append.mp hc with hc | hc
      · rcases List.mem_append.mp hc with hc | hc
        · rcases List.mem_append.mp hc with hc | hc
          · rcases List.mem_append.mp hc with hc | hc
            · exact padInt_digits 4 t.year c hc
            · exact padInt_digits 2 t.month c hc
          · exact padInt_digits 2 t.day c hc
        · exact padInt_digits 2 t.hour c hc
      · exact padInt_digits 2 t.minute c hc
    · exact padInt_digits 2 t.second c hc

theorem timestampName_no_slash (t : DateTime) :
    '/' ∉ (TimestampedFilename t).toList := by
  intro h
  rw [timestampName_toList] at h
  have hnd : ('/' : Char).isDigit = false := by decide
  rcases List.mem_append.mp h with h | h
  case inr => simp at h
  rcases List.mem_append.mp h with h | h
  case inr => rw [padInt_digits 2 t.second '/' h] at hnd; cases hnd
  rcases List.mem_append.mp h with h | h
  case inr => rw [padInt_digits 2 t.minute '/' h] at hnd; cases hnd
  rcases List.mem_append.mp h with h | h
  case inr => rw [padInt_digits 2 t.hour '/' h] at hnd; cases hnd
  rcases List.mem_append.mp h with h | h
  case inr => simp at h
  rcases List.mem_append.mp h with h | h
  case inr => rw [padInt_digits 2 t.day '/' h] at hnd; cases hnd
  rcases List.mem_append.mp h with h | h
  case inr => simp at h
  rcases List.mem_append.mp h with h | h
  case inr => rw [padInt_digits 2 t.month '/' h] at hnd; cases hnd
  rcases List.mem_append.mp h with h | h
  case inr => simp at h
  case inl => rw [padInt_digits 4 t.year '/' h] at hnd; cases hnd

theorem timestampName_length_ge (t : DateTime) :
    14 ≤ (TimestampedFilename t).toList.length := by
  rw [timestampName_toList]
  have h4 := padInt_length_ge 4 t.year
  have h2a := padInt_length_ge 2 t.month
  have h2b := padInt_length_ge 2 t.day
  have h2c := padInt_length_ge 2 t.hour
  have h2d := padInt_length_ge 2 t.minute
  have h2e := padInt_length_ge 2 t.second
  simp only [List.length_append]
  simp only [List.length_cons, List.length_nil]
  omega

theorem splitSlash_no_slash (a : Str) (ha : '/' ∉ a) : splitSlash a = [a] := by
  induction a with
  | nil => rfl
  | cons c cs ih =>
    have hc : c ≠ '/' := fun h => ha (h ▸ List.mem_cons_self c cs)
    have hcs : '/' ∉ cs := fun h => ha (List.mem_cons_of_mem c h)
    rw [splitSlash]
    simp [hc, ih hcs]

theorem splitSlash_append (a b : Str) (ha : '/' ∉ a) :
    splitSlash (a ++ '/' :: b) = a :: splitSlash b := by
  induction a with
  | nil => simp [splitSlash]
  | cons c cs ih =>
    have hc : c ≠ '/' := fun h => ha (h ▸ List.mem_cons_self c cs)
    have hcs : '/' ∉ cs := fun h => ha (List.mem_cons_of_mem c h)
    rw [List.cons_append, splitSlash]
    simp [hc, ih hcs]

theorem string_ne_of_data_ne (a b : String) (h : a.data ≠ b.data) : a ≠ b :=
  fun he => h (he ▸ rfl)

theorem goClean_plain_join (a f : String)
    (ha0 : a ≠ "") (ha : '/' ∉ a.toList) (had : a ≠ ".") (hadd : a ≠ "..")
    (hf0 : f ≠ "") (hf : '/' ∉ f.toList) (hfd : f ≠ ".") (hfdd : f ≠ "..") :
    goJoin a f = a ++ "/" ++ f := by
  have hdataA : a.data ≠ [] := fun h => ha0 (by cases a; simp_all)
  have hdataF : f.data ≠ [] := fun h => hf0 (by cases f; simp_all)
  have hAdot : a.data ≠ ['.'] := fun h => had (by cases a; simp_all)
  have hAdd : a.data ≠ ['.', '.'] := fun h => hadd (by cases a; simp_all)
  have hFdot : f.data ≠ ['.'] := fun h => hfd (by cases f; simp_all)
  have hFdd : f.data ≠ ['.', '.'] := fun h => hfdd (by cases f; simp_all)
  have hdata : (a ++ "/" ++ f).data = a.data ++ '/' :: f.data := by
    rw [String.data_append, String.data_append]
    simp
  have hne : a ++ "/" ++ f ≠ "" := by
    apply string_ne_of_data_ne
    rw [hdata]
    simp [hdataA]
  obtain ⟨c, cs, hacs⟩ : ∃ c cs, a.data = c :: cs := by
    cases hd : a.data with
    | nil => exact absurd hd hdataA
    | cons c cs => exact ⟨c, cs, rfl⟩
  have hcslash : c ≠ '/' := by
    intro h
    apply ha
    show '/' ∈ a.data
    rw [hacs, ← h]
    exact List.mem_cons_self c cs
  have hhead : ¬((a.data ++ '/' :: f.data).headD ' ' = '/') := by
    rw [hacs]
    simpa using hcslash
  have hsplit : splitSlash (a.data ++ '/' :: f.data) = [a.data, f.data] := by
    rw [splitSlash_append a.data f.data ha, splitSlash_no_slash f.data hf]
  have hclean : cleanStack false [] [a.data, f.data] = [a.data, f.data] := by
    rw [cleanStack, if_neg (by simp [hdataA, hAdot]), if_neg (by simp [hAdd])]
    rw [cleanStack, if_neg (by simp [hdataF, hFdot]), if_neg (by simp [hFdd])]
    rw [cleanStack]
    rfl
  have hinterc : List.intercalate ['/'] [a.data, f.data] = a.data ++ '/' :: f.data := by
    simp [List.intercalate, List.intersperse]
  have hbody : (a.data ++ '/' :: f.data).isEmpty = false := by
    rw [hacs]
    rfl
  have htl : (a ++ "/" ++ f).toList = a.data ++ '/' :: f.data := hdata
  simp only [goJoin, goClean, ha0, hne, htl, hhead, decide_False, hsplit,
    hclean, hinterc, hbody, if_false, ite_false, Bool.false_eq_true]
  apply String.ext
  rw [hdata]

theorem map_noSep_id (sep : Char) (l : Str) (h : sep ∉ l) :
    l.map (fun c => if c = sep then '/' else c) = l := by
  induction l with
  | nil => rfl
  | cons c cs ih =>
    have hc : c ≠ sep := fun he => h (he ▸ List.mem_cons_self c cs)
    have hcs : sep ∉ cs := fun he => h (List.mem_cons_of_mem c he)
    simp [hc, ih hcs]

theorem joinSep_map_slash (sep : Char) (comps : List String)
    (h : ∀ comp ∈ comps, sep ∉ comp.toList) :
    (joinSep sep comps).map (fun c => if c = sep then '/' else c) =
      joinSep '/' comps := by
  induction comps with
  | nil => rfl
  | cons x xs ih =>
    cases xs with
    | nil =>
      simp only [joinSep]
      exact map_noSep_id sep x.toList (h x (List.mem_cons_self _ _))
    | cons y ys =>
      simp only [joinSep, List.map_append, List.map_cons]
      rw [map_noSep_id sep x.toList (h x (List.mem_cons_self _ _))]
      rw [ih (fun comp hc => h comp (List.mem_cons_of_mem x hc))]
      simp

theorem toSlash_joinSep (sep : Char) (comps : List String)
    (h : ∀ comp ∈ comps, sep ∉ comp.toList) :
    toSlash sep (⟨joinSep sep comps⟩ : String) = ⟨joinSep '/' comps⟩ := by
  by_cases hsep : sep = '/'
  · subst hsep
    simp [toSlash]
  · simp only [toSlash, hsep, if_false]
    exact congrArg String.mk (joinSep_map_slash sep comps h)

/-! ### C9 -/

/-- C9: a successful `Backup` returns the archive path
`filepath.Join(destinationRoot, TimestampedFilename)`; the filename has
the `YYYY-MM-DD_HHMMSS.tar.gz` shape (UTC fields, zero-padded digits);
for a plain destination root (no separator, not a dot path) the result
is literally `{destinationRoot}/{timestamp}.tar.gz`; and every tar entry
name produced by the modelled `CreateArchive` walk is the
forward-slash-joined relative component path, whatever the host OS
separator is. -/
theorem C9_archive_contract (m : Manager) (conn : ConnectorModel) (dt : DateTime)
    (dur : Int) (path : String) (st : Stats)
    (hok : (m.Backup conn dt dur).2 = .ok (path, st))
    (hy : dt.year < 10000) (hmo : dt.month < 100) (hd : dt.day < 100)
    (hh : dt.hour < 100) (hmi : dt.minute < 100) (hs : dt.second < 100) :
    path = goJoin m.BackupLocation (TimestampedFilename dt) ∧
    isTimestampName (TimestampedFilename dt) ∧
    ('/' ∉ m.BackupLocation.toList → m.BackupLocation ≠ "." →
      m.BackupLocation ≠ ".." →
      path = m.BackupLocation ++ "/" ++ TimestampedFilename dt) ∧
    (∀ sep entries, (∀ e ∈ entries, ∀ comp ∈ e.comps, sep ∉ comp.toList) →
      archiveEntryNames sep entries =
        entries.map fun e => (⟨joinSep '/' e.comps⟩ : String)) := by
  cases hBp : m.Backup conn dt dur with
  | mk trace res =>
    rw [hBp] at hok
    simp only at hok
    have hinv := Backup_inv m conn dt dur trace res hBp
    dsimp only at hinv
    rcases hinv with ⟨hbl, htr, hres⟩ |
      ⟨hbl, ⟨e0, hc, htr, hres⟩ |
        ⟨hc2, ⟨e0, hl2, htr, hres⟩ |
          ⟨files2, hl2, ⟨e0, herr, htr, hres⟩ | ⟨herr, htr, hres⟩⟩⟩⟩
    · rw [hres] at hok; cases hok
    · rw [hres] at hok; cases hok
    · rw [hres] at hok; cases hok
    · rw [hres] at hok; cases hok
    · rw [hres] at hok
      injection hok with hpair
      have hp := (Prod.mk.injEq _ _ _ _).mp hpair
      have hpath : path = goJoin m.BackupLocation (TimestampedFilename dt) :=
        hp.1.symm
      have h14 := timestampName_length_ge dt
      have hfname_ne : TimestampedFilename dt ≠ "" := by
        intro he
        rw [he] at h14
        have : (("" : String).toList.length) = 0 := rfl
        omega
      have hfname_dot : TimestampedFilename dt ≠ "." := by
        intro he
        rw [he] at h14
        have : (("." : String).toList.length) = 1 := rfl
        omega
      have hfname_dd : TimestampedFilename dt ≠ ".." := by
        intro he
        rw [he] at h14
        have : ((".." : String).toList.length) = 2 := rfl
        omega
      refine ⟨hpath, timestampName_shape dt hy hmo hd hh hmi hs, ?_, ?_⟩
      · intro hnb hbd hbdd
        rw [hpath]
        exact goClean_plain_join m.BackupLocation (TimestampedFilename dt)
          hbl hnb hbd hbdd hfname_ne (timestampName_no_slash dt)
          hfname_dot hfname_dd
      · intro sep entries hsep
        simp only [archiveEntryNames]
        apply List.map_congr_left
        intro e he
        exact toSlash_joinSep sep e.comps (hsep e he)

/-- Witness for C9 at the example scenario: the archive path is
`backups/2026-01-02_030405.tar.gz`, with the timestamp-shaped name. -/
theorem C9_archive_contract_witness :
    (exampleMgr.Backup exampleConn exampleDT 7).2 =
      .ok ("backups/2026-01-02_030405.tar.gz",
           { Files := 1, Bytes := 10, Duration := 7 }) ∧
    isTimestampName (TimestampedFilename exampleDT) ∧
    "backups/2026-01-02_030405.tar.gz" =
      "backups" ++ "/" ++ TimestampedFilename exampleDT := by
  have h := C9_archive_contract exampleMgr exampleConn exampleDT 7
    "backups/2026-01-02_030405.tar.gz" { Files := 1, Bytes := 10, Duration := 7 }
    rfl (by decide) (by decide) (by decide) (by decide) (by decide) (by decide)
  exact ⟨rfl, h.2.1, h.2.2.1 (by decide) (by decide) (by decide)⟩

/-! ### C7 -/

/-- C7 counterexample: the claim "exactly one of the two authentication
inputs must be supplied or Connect fails" is false on the code: with
both a key file and a password supplied (and a healthy environment),
`Connect` succeeds — both methods are assembled, key first — instead of
failing the exactly-one condition. -/
theorem C7_counterexample :
    bothAuthCfg.KeyFile ≠ "" ∧ bothAuthCfg.Password ≠ "" ∧
    ((NewSFTPConnector bothAuthCfg).Connect happySFTPNet).2 = .ok () ∧
    sftpAuthMethods bothAuthCfg happySFTPNet.readFile happySFTPNet.parseKey =
      .ok [AuthMethod.publicKeys, AuthMethod.password "pw"] := by
  exact ⟨by decide, by decide, rfl, rfl⟩

/-- C7 (amended): at least one of the two authentication inputs
(private-key file, password) must be supplied or `Connect` fails with
the "no authentication method" error; a configured key file is placed
first in the method list (after being read and parsed) and the password
second, so the key is tried first with the password as fallback — when
both are supplied, both are offered in that order. -/
theorem C7_amended_auth (cfg : Config) (net : SFTPNet) :
    (cfg.KeyFile = "" → cfg.Password = "" →
      ((NewSFTPConnector cfg).Connect net).2 =
        .error "no authentication method provided (need password or key_file)") ∧
    (∀ key, cfg.KeyFile ≠ "" → net.readFile cfg.KeyFile = .ok key →
      net.parseKey key = .ok () →
      sftpAuthMethods cfg net.readFile net.parseKey =
        .ok ([AuthMethod.publicKeys] ++
          (if cfg.Password ≠ "" then [AuthMethod.password cfg.Password] else []))) ∧
    (cfg.KeyFile = "" → cfg.Password ≠ "" →
      sftpAuthMethods cfg net.readFile net.parseKey =
        .ok [AuthMethod.password cfg.Password]) := by
  have hkf : (NewSFTPConnector cfg).config.KeyFile = cfg.KeyFile := by
    simp only [NewSFTPConnector]
    split <;> rfl
  have hpw : (NewSFTPConnector cfg).config.Password = cfg.Password := by
    simp only [NewSFTPConnector]
    split <;> rfl
  refine ⟨?_, ?_, ?_⟩
  · intro hk hp
    have hauth : sftpAuthMethods (NewSFTPConnector cfg).config net.readFile net.parseKey =
        .error "no authentication method provided (need password or key_file)" := by
      simp [sftpAuthMethods, hkf, hpw, hk, hp]
    simp [SFTPConnector.Connect, hauth]
  · intro key hk hr hp
    simp only [sftpAuthMethods, hk, if_true, hr, hp]
    by_cases hpw2 : cfg.Password = "" <;> simp [hpw2, hk]
  · intro hk hp
    simp [sftpAuthMethods, hk, hp]

/-- Witness for C7 (amended): with neither auth input, `Connect` fails
with the "no authentication method" error; with only a password, the
assembled method list is the password alone. -/
theorem C7_amended_auth_witness :
    noAuthCfg.KeyFile = "" ∧ noAuthCfg.Password = "" ∧
    ((NewSFTPConnector noAuthCfg).Connect happySFTPNet).2 =
      .error "no authentication method provided (need password or key_file)" := by
  have h := (C7_amended_auth noAuthCfg happySFTPNet).1 (by decide) (by decide)
  exact ⟨by decide, by decide, h⟩

/-! ### C6 -/

/-- C6: when the vendor-API connector's `Connect` receives HTTP 429 with
`Retry-After: 30`, it fails with an error message containing "30" and
"rate limited", the internal FTP delegate is never constructed
(`ftp = none`), and subsequent `List`/`Download`/`Upload` still fail
with "not connected". -/
theorem C6_rate_limited (cfg : Config) (resp : HTTPResponse) (ftpNet : FTPNet)
    (hk : cfg.APIKey ≠ "") (hs : cfg.ServiceID ≠ "")
    (h429 : resp.statusCode = 429) (hra : resp.retryAfter = "30") :
    ∃ msg, ((NewNitradoConnector cfg).Connect (.ok resp) ftpNet).2 = .error msg ∧
      (∃ a b, msg = a ++ "30" ++ b) ∧
      (∃ a b, msg = a ++ "rate limited" ++ b) ∧
      ((NewNitradoConnector cfg).Connect (.ok resp) ftpNet).1.ftp = none ∧
      (∀ fuel, ((NewNitradoConnector cfg).Connect (.ok resp) ftpNet).1.List fuel =
        .error "not connected") ∧
      (∀ p, ((NewNitradoConnector cfg).Connect (.ok resp) ftpNet).1.Download p =
        .error "not connected") ∧
      (∀ p, ((NewNitradoConnector cfg).Connect (.ok resp) ftpNet).1.Upload p =
        .error "not connected") := by
  have hkey : (NewNitradoConnector cfg).apiKey = cfg.APIKey := rfl
  have hsid : (NewNitradoConnector cfg).serviceID = cfg.ServiceID := rfl
  have hfetch : (NewNitradoConnector cfg).fetchFTPCredentials (.ok resp) =
      .error "rate limited by Nitrado API (retry after: 30)" := by
    simp only [NitradoConnector.fetchFTPCredentials, h429, hra]
    rfl
  have hconn : (NewNitradoConnector cfg).Connect (.ok resp) ftpNet =
      (NewNitradoConnector cfg,
       .error ("failed to get Nitrado FTP credentials: " ++
         "rate limited by Nitrado API (retry after: 30)")) := by
    simp only [NitradoConnector.Connect, hkey, hsid, hfetch]
    rw [if_neg hk, if_neg hs]
  refine ⟨"failed to get Nitrado FTP credentials: " ++
      "rate limited by Nitrado API (retry after: 30)",
    by rw [hconn], ?_, ?_, by rw [hconn]; rfl, ?_, ?_, ?_⟩
  · exact ⟨"failed to get Nitrado FTP credentials: rate limited by Nitrado API (retry after: ",
           ")", by decide⟩
  · exact ⟨"failed to get Nitrado FTP credentials: ",
           " by Nitrado API (retry after: 30)", by decide⟩
  · intro fuel
    rw [hconn]
    rfl
  · intro p
    rw [hconn]
    rfl
  · intro p
    rw [hconn]
    rfl

/-- Witness for C6: the concrete Nitrado config and the concrete 429
response with `Retry-After: 30` make `Connect` fail with a message
containing "30" while the delegate stays unset. -/
theorem C6_rate_limited_witness :
    nitradoCfg.APIKey ≠ "" ∧ nitradoCfg.ServiceID ≠ "" ∧
    rateLimited429.statusCode = 429 ∧ rateLimited429.retryAfter = "30" ∧
    ∃ msg, ((NewNitradoConnector nitradoCfg).Connect (.ok rateLimited429) deadFTPNet).2 =
        .error msg ∧
      (∃ a b, msg = a ++ "30" ++ b) ∧
      ((NewNitradoConnector nitradoCfg).Connect (.ok rateLimited429) deadFTPNet).1.ftp =
        none := by
  obtain ⟨msg, h1, h2, h3, h4, h5⟩ :=
    C6_rate_limited nitradoCfg rateLimited429 deadFTPNet
      (by decide) (by decide) (by decide) (by decide)
  exact ⟨by decide, by decide, by decide, by decide, msg, h1, h2, h4⟩

end Gsbt
